import Mathlib

/-!
# Verification of the Pickleball queue rotation and wait-prediction engine

Shallow embedding of the core logic of the WidestNet/Pickleball repository:

* `firebase/functions/src/queue/QueueService.js` — queue join/leave, the
  rotation decision (`determineRotation`), and game-end queue processing;
* `firebase/functions/src/games/GameService.js` — game creation and completion;
* `firebase/functions/src/ml/PredictionService.js` — wait-time prediction and
  the exponentially weighted duration average;
* the client-side `GameDurationService` (`predictWaitTime`).

Firestore documents become plain Lean structures; a Firestore transaction that
throws becomes an `Except` value (on `error`, nothing is written, so the state
the transaction read is left unchanged).  JS numbers holding integral counts
become `Nat`/`Int`; duration averages computed with `Math.exp` weights are
embedded over `ℝ`.
-/

namespace Pickleball

/-! ## Queue data model (QueueService.js)

A queue document holds an ordered `players` array; each entry has the player's
id, a 1-based `position`, and a `notified` flag (plus a timestamp, irrelevant
to the logic and omitted). -/

/-- One entry of a queue's `players` array. -/
structure QueueEntry where
  playerId : String
  position : Nat
  notified : Bool := false
deriving Repr, DecidableEq

/-- Errors thrown by the queue transactions. -/
inductive QueueError where
  | alreadyInQueue
  | notInQueue
deriving Repr, DecidableEq

/-- `ROTATION_THRESHOLD = 8` (QueueService.js line 10). -/
def ROTATION_THRESHOLD : Nat := 8

/-- `MAX_CONSECUTIVE_WINS = 3` (QueueService.js line 11). -/
def MAX_CONSECUTIVE_WINS : Nat := 3

/-- `joinQueue` (QueueService.js lines 19–59), restricted to the queue's
`players` array, which is the only state the transaction mutates.
If the player id is already present the transaction throws
(`Player already in queue`) and writes nothing; otherwise the player is
appended at the tail with `position = players.length + 1`, and that position
is returned. -/
def joinQueue (players : List QueueEntry) (playerId : String) :
    Except QueueError (Nat × List QueueEntry) :=
  if players.any (fun p => p.playerId = playerId) then
    .error .alreadyInQueue
  else
    let position := players.length + 1
    .ok (position, players ++ [{ playerId := playerId, position := position, notified := false }])

/-- The position recompute `players.map((p, idx) => ({ ...p, position: idx + 1 }))`
appearing in `leaveQueue` (lines 90–93) and `processGameEnd` (line 230),
written as recursion on the list with the running index `k` (starting at 1). -/
def reindexFrom (k : Nat) : List QueueEntry → List QueueEntry
  | [] => []
  | p :: rest => { p with position := k } :: reindexFrom (k + 1) rest

/-- Renumber positions `1..length` in list order. -/
def reindex (players : List QueueEntry) : List QueueEntry :=
  reindexFrom 1 players

/-- `leaveQueue` (QueueService.js lines 67–102): find the player's index
(`findIndex`), throw `Player not in queue` if absent, otherwise `splice` the
entry out and recompute positions. -/
def leaveQueue (players : List QueueEntry) (playerId : String) :
    Except QueueError (List QueueEntry) :=
  match players.findIdx? (fun p => p.playerId = playerId) with
  | none => .error .notInQueue
  | some i => .ok (reindex (players.eraseIdx i))

/-- The queue update performed by `processGameEnd` (QueueService.js lines
228–230): drop every entry whose id is in `nextUp` and recompute positions. -/
def rotationRemove (players : List QueueEntry) (nextUp : List String) : List QueueEntry :=
  reindex (players.filter (fun p => !(nextUp.contains p.playerId)))

/-! ## Rotation decision (QueueService.js `determineRotation`, lines 140–168) -/

/-- The `gameResult` argument of `determineRotation`. -/
structure GameResult where
  winningTeam : List String
  losingTeam : List String
  winnerConsecutiveWins : Nat
deriving Repr, DecidableEq

/-- The rotation instructions returned by `determineRotation`.  The JS object
uses the string literals `'FULL'` / `'PARTIAL'` and the three reason strings,
kept verbatim. -/
structure RotationDecision where
  rotationType : String
  playersOff : List String
  playersStay : List String
  reason : String
  nextUp : List String
deriving Repr, DecidableEq

/-- `determineRotation(gameResult, queuePlayers)` (QueueService.js lines
140–168).  Full rotation when the queue has reached `ROTATION_THRESHOLD` or
the winners reached `MAX_CONSECUTIVE_WINS`; otherwise partial rotation where
only the losing team departs.  `nextUp` is `queuePlayers.slice(0, 4)` resp.
`slice(0, 2)` mapped to player ids. -/
def determineRotation (gameResult : GameResult) (queuePlayers : List QueueEntry) :
    RotationDecision :=
  let queueLength := queuePlayers.length
  let winnersExceededLimit := MAX_CONSECUTIVE_WINS ≤ gameResult.winnerConsecutiveWins
  if ROTATION_THRESHOLD ≤ queueLength ∨ winnersExceededLimit then
    { rotationType := "FULL"
      playersOff := gameResult.winningTeam ++ gameResult.losingTeam
      playersStay := []
      reason := if winnersExceededLimit then "consecutive_win_limit" else "high_demand"
      nextUp := (queuePlayers.take 4).map (fun p => p.playerId) }
  else
    { rotationType := "PARTIAL"
      playersOff := gameResult.losingTeam
      playersStay := gameResult.winningTeam
      reason := "normal_play"
      nextUp := (queuePlayers.take 2).map (fun p => p.playerId) }

/-! ## Claims C1 and C2: the rotation decision rules -/

/-- **C1.** If `winnerConsecutiveWins >= 3` then `determineRotation` returns a
FULL rotation sending all four players off with reason
`consecutive_win_limit`, for every queue — in particular also when the queue
is shorter than the high-demand threshold. -/
theorem determineRotation_consecutive_win_limit
    (gameResult : GameResult) (queuePlayers : List QueueEntry)
    (h : 3 ≤ gameResult.winnerConsecutiveWins) :
    (determineRotation gameResult queuePlayers).rotationType = "FULL" ∧
    (determineRotation gameResult queuePlayers).playersOff =
      gameResult.winningTeam ++ gameResult.losingTeam ∧
    (determineRotation gameResult queuePlayers).playersStay = [] ∧
    (determineRotation gameResult queuePlayers).reason = "consecutive_win_limit" := by
  have hlim : MAX_CONSECUTIVE_WINS ≤ gameResult.winnerConsecutiveWins := h
  simp [determineRotation, hlim]

/-- Witness for C1: a queue of length 2 (below the threshold) with a
3-streak winner still produces a FULL `consecutive_win_limit` rotation. -/
theorem determineRotation_consecutive_win_limit_witness :
    (determineRotation ⟨["a", "b"], ["c", "d"], 3⟩
        [⟨"e", 1, false⟩, ⟨"f", 2, false⟩]).rotationType = "FULL" ∧
    (determineRotation ⟨["a", "b"], ["c", "d"], 3⟩
        [⟨"e", 1, false⟩, ⟨"f", 2, false⟩]).playersOff = ["a", "b"] ++ ["c", "d"] ∧
    (determineRotation ⟨["a", "b"], ["c", "d"], 3⟩
        [⟨"e", 1, false⟩, ⟨"f", 2, false⟩]).playersStay = [] ∧
    (determineRotation ⟨["a", "b"], ["c", "d"], 3⟩
        [⟨"e", 1, false⟩, ⟨"f", 2, false⟩]).reason = "consecutive_win_limit" :=
  determineRotation_consecutive_win_limit ⟨["a", "b"], ["c", "d"], 3⟩
    [⟨"e", 1, false⟩, ⟨"f", 2, false⟩] (by decide)

/-- **C2.** With `winnerConsecutiveWins < 3`: a queue of length `>= 8` gives a
FULL `high_demand` rotation with all four off and `nextUp` the ids of the
first four queued players; a shorter queue gives a PARTIAL `normal_play`
rotation sending exactly the losing team off, keeping the winning team, with
`nextUp` the ids of the first two queued players.  `List.take` yields fewer
entries (down to none) when the queue is shorter, so no case fails. -/
theorem determineRotation_threshold
    (gameResult : GameResult) (queuePlayers : List QueueEntry)
    (h : gameResult.winnerConsecutiveWins < 3) :
    (8 ≤ queuePlayers.length →
      determineRotation gameResult queuePlayers =
        { rotationType := "FULL"
          playersOff := gameResult.winningTeam ++ gameResult.losingTeam
          playersStay := []
          reason := "high_demand"
          nextUp := (queuePlayers.take 4).map (fun p => p.playerId) }) ∧
    (queuePlayers.length < 8 →
      determineRotation gameResult queuePlayers =
        { rotationType := "PARTIAL"
          playersOff := gameResult.losingTeam
          playersStay := gameResult.winningTeam
          reason := "normal_play"
          nextUp := (queuePlayers.take 2).map (fun p => p.playerId) }) := by
  have hlim : ¬ MAX_CONSECUTIVE_WINS ≤ gameResult.winnerConsecutiveWins := by
    simpa [MAX_CONSECUTIVE_WINS] using h
  constructor
  · intro hlen
    simp [determineRotation, hlim, ROTATION_THRESHOLD, hlen]
  · intro hlen
    simp [determineRotation, hlim, ROTATION_THRESHOLD, Nat.not_le.mpr hlen]

/-- Witness for C2: at queue length 8 the decision is FULL `high_demand`; an
empty queue (length `0 < 8`) gives PARTIAL with an empty `nextUp`. -/
theorem determineRotation_threshold_witness :
    (determineRotation ⟨["a", "b"], ["c", "d"], 0⟩
        ((List.range 8).map (fun i => ⟨toString i, i + 1, false⟩)) =
      { rotationType := "FULL"
        playersOff := ["a", "b"] ++ ["c", "d"]
        playersStay := []
        reason := "high_demand"
        nextUp := ((((List.range 8).map
          (fun i => (⟨toString i, i + 1, false⟩ : QueueEntry))).take 4).map
            (fun p => p.playerId)) }) ∧
    (determineRotation ⟨["a", "b"], ["c", "d"], 0⟩ [] =
      { rotationType := "PARTIAL"
        playersOff := ["c", "d"]
        playersStay := ["a", "b"]
        reason := "normal_play"
        nextUp := [] }) :=
  ⟨(determineRotation_threshold ⟨["a", "b"], ["c", "d"], 0⟩
      ((List.range 8).map (fun i => ⟨toString i, i + 1, false⟩)) (by decide)).1 (by decide),
    (determineRotation_threshold ⟨["a", "b"], ["c", "d"], 0⟩ [] (by decide)).2 (by decide)⟩

/-! ## Claims C4 and C5: queue well-formedness and join semantics -/

/-- The queue invariant stated by the spec: the `position` fields are exactly
`1..length` in list order (dense, no gaps, no duplicates) and no player id
appears twice. -/
def wellFormed (players : List QueueEntry) : Prop :=
  players.map (fun p => p.position) = List.range' 1 players.length ∧
  (players.map (fun p => p.playerId)).Nodup

instance (players : List QueueEntry) : Decidable (wellFormed players) := by
  unfold wellFormed; infer_instance

/-- The three mutations the queue ever undergoes: a `joinQueue` call, a
`leaveQueue` call, and the rotation removal inside `processGameEnd`. -/
inductive QueueOp where
  | join (playerId : String)
  | leave (playerId : String)
  | rotate (nextUp : List String)

/-- Run one operation on the `players` array.  A transaction that throws
writes nothing, so the failing cases leave the array as it was read. -/
def applyOp (players : List QueueEntry) : QueueOp → List QueueEntry
  | .join playerId =>
    match joinQueue players playerId with
    | .ok (_, players') => players'
    | .error _ => players
  | .leave playerId =>
    match leaveQueue players playerId with
    | .ok players' => players'
    | .error _ => players
  | .rotate nextUp => rotationRemove players nextUp

/-- Run a sequence of queue operations. -/
def applyOps (ops : List QueueOp) (players : List QueueEntry) : List QueueEntry :=
  ops.foldl applyOp players

lemma reindexFrom_map_position (players : List QueueEntry) :
    ∀ k, (reindexFrom k players).map (fun p => p.position) =
      List.range' k players.length := by
  induction players with
  | nil => intro k; simp [reindexFrom]
  | cons p rest ih => intro k; simp [reindexFrom, List.range'_succ, ih]

lemma reindexFrom_map_playerId (players : List QueueEntry) :
    ∀ k, (reindexFrom k players).map (fun p => p.playerId) =
      players.map (fun p => p.playerId) := by
  induction players with
  | nil => intro k; simp [reindexFrom]
  | cons p rest ih => intro k; simp [reindexFrom, ih]

lemma wellFormed_reindex (players : List QueueEntry)
    (h : (players.map (fun p => p.playerId)).Nodup) : wellFormed (reindex players) := by
  refine ⟨?_, ?_⟩
  · have hlen : (reindex players).length = players.length := by
      have := congrArg List.length (reindexFrom_map_playerId players 1)
      simpa [reindex] using this
    rw [hlen]
    exact reindexFrom_map_position players 1
  · rw [reindex, reindexFrom_map_playerId]
    exact h

/-- A join either rejects a duplicate id (leaving the array unchanged) or
appends at the tail; both outcomes preserve the invariant. -/
lemma applyOp_join_wellFormed (players : List QueueEntry) (playerId : String)
    (h : wellFormed players) : wellFormed (applyOp players (.join playerId)) := by
  by_cases hmem : players.any (fun p => p.playerId = playerId)
  · simpa [applyOp, joinQueue, hmem] using h
  · have hnotin : playerId ∉ players.map (fun p => p.playerId) := by
      simp only [List.any_eq_true, decide_eq_true_eq] at hmem
      simp only [List.mem_map]
      rintro ⟨p, hp, rfl⟩
      exact hmem ⟨p, hp, rfl⟩
    refine ⟨?_, ?_⟩
    · simp only [applyOp, joinQueue, hmem, Bool.false_eq_true, if_false, List.map_append,
        List.length_append, List.map_cons, List.map_nil, List.length_cons, List.length_nil]
      rw [h.1]
      have hn : players.length + (0 + 1) = players.length + 1 := by omega
      rw [hn, List.range'_1_concat]
      simp [Nat.add_comm]
    · simp only [applyOp, joinQueue, hmem, Bool.false_eq_true, if_false, List.map_append,
        List.map_cons, List.map_nil]
      rw [List.nodup_append]
      refine ⟨h.2, List.nodup_singleton _, ?_⟩
      intro a ha hb
      simp only [List.mem_singleton] at hb
      subst hb
      exact hnotin ha

lemma applyOp_leave_wellFormed (players : List QueueEntry) (playerId : String)
    (h : wellFormed players) : wellFormed (applyOp players (.leave playerId)) := by
  rcases hfind : players.findIdx? (fun p => p.playerId = playerId) with _ | i
  · simpa [applyOp, leaveQueue, hfind] using h
  · simp only [applyOp, leaveQueue, hfind]
    exact wellFormed_reindex _
      (((players.eraseIdx_sublist i).map (fun p => p.playerId)).nodup h.2)

lemma applyOp_rotate_wellFormed (players : List QueueEntry) (nextUp : List String)
    (h : wellFormed players) : wellFormed (applyOp players (.rotate nextUp)) := by
  simp only [applyOp, rotationRemove]
  exact wellFormed_reindex _
    (((players.filter_sublist).map (fun p => p.playerId)).nodup h.2)

lemma applyOp_wellFormed (players : List QueueEntry) (op : QueueOp)
    (h : wellFormed players) : wellFormed (applyOp players op) := by
  cases op with
  | join playerId => exact applyOp_join_wellFormed players playerId h
  | leave playerId => exact applyOp_leave_wellFormed players playerId h
  | rotate nextUp => exact applyOp_rotate_wellFormed players nextUp h

lemma applyOps_wellFormed (ops : List QueueOp) (players : List QueueEntry)
    (h : wellFormed players) : wellFormed (applyOps ops players) := by
  induction ops generalizing players with
  | nil => simpa [applyOps] using h
  | cons op rest ih =>
    simpa [applyOps, List.foldl_cons] using ih _ (applyOp_wellFormed players op h)

/-- Stability of the rotation removal: the surviving ids are the old id list
filtered in place, i.e. relative order is untouched. -/
lemma applyOp_rotate_map (players : List QueueEntry) (nextUp : List String) :
    (applyOp players (.rotate nextUp)).map (fun p => p.playerId) =
      (players.map (fun p => p.playerId)).filter (fun x => !(nextUp.contains x)) := by
  simp only [applyOp, rotationRemove, reindex, reindexFrom_map_playerId]
  induction players with
  | nil => simp
  | cons p rest ih =>
    rw [List.map_cons, List.filter_cons, List.filter_cons]
    cases hb : nextUp.contains p.playerId with
    | false => simp only [hb, Bool.not_false, if_true, List.map_cons, ih]
    | true => simp only [hb, Bool.not_true, Bool.false_eq_true, if_false, ih]

/-- Stability of `leaveQueue`: on a duplicate-free queue, removing a player
(or failing because the player is absent) leaves the id list equal to the old
id list with that player filtered out — the other entries keep their order. -/
lemma applyOp_leave_map (players : List QueueEntry) (playerId : String)
    (h : (players.map (fun p => p.playerId)).Nodup) :
    (applyOp players (.leave playerId)).map (fun p => p.playerId) =
      (players.map (fun p => p.playerId)).filter (fun x => !(x = playerId)) := by
  induction players with
  | nil => simp [applyOp, leaveQueue]
  | cons p rest ih =>
    simp only [List.map_cons, List.nodup_cons] at h
    have hcons : (p :: rest).findIdx? (fun q => q.playerId = playerId) =
        if p.playerId = playerId then some 0
        else (rest.findIdx? (fun q => q.playerId = playerId)).map (fun i => i + 1) := by
      rw [List.findIdx?_cons, List.findIdx?_succ]
      by_cases hp : p.playerId = playerId <;> simp [hp]
    by_cases hp : p.playerId = playerId
    · have hrest : ∀ x ∈ rest.map (fun p => p.playerId), (!(decide (x = playerId))) = true := by
        intro x hx
        simp only [Bool.not_eq_true', decide_eq_false_iff_not]
        rintro rfl
        exact h.1 (hp ▸ hx)
      rw [show applyOp (p :: rest) (.leave playerId) = reindex rest by
        simp [applyOp, leaveQueue, hcons, hp]]
      rw [reindex, reindexFrom_map_playerId, List.map_cons, List.filter_cons]
      simp only [hp, decide_True, Bool.not_true, Bool.false_eq_true, if_false]
      exact (List.filter_eq_self.mpr hrest).symm
    · have hstep := ih h.2
      rw [List.map_cons, List.filter_cons]
      simp only [hp, decide_False, Bool.not_false, if_true]
      rcases hfind : rest.findIdx? (fun q => q.playerId = playerId) with _ | i
      · rw [show applyOp rest (.leave playerId) = rest by
          simp [applyOp, leaveQueue, hfind]] at hstep
        rw [show applyOp (p :: rest) (.leave playerId) = p :: rest by
          simp [applyOp, leaveQueue, hcons, hp, hfind]]
        rw [List.map_cons, ← hstep]
      · rw [show applyOp rest (.leave playerId) = reindex (rest.eraseIdx i) by
          simp [applyOp, leaveQueue, hfind]] at hstep
        rw [show applyOp (p :: rest) (.leave playerId) = reindex (p :: rest.eraseIdx i) by
          simp [applyOp, leaveQueue, hcons, hp, hfind, List.eraseIdx_cons_succ]]
        rw [reindex, reindexFrom_map_playerId, List.map_cons, ← hstep,
          reindex, reindexFrom_map_playerId]

/-- **C4.** Starting from any well-formed queue, every sequence of
join/leave/rotation operations yields a well-formed queue (positions exactly
`1..n` in order, no duplicate player), and each removal operation is stable:
the surviving ids are the previous id list with the removed ids filtered out
in place. -/
theorem queue_sequence_invariant (players : List QueueEntry) (ops : List QueueOp)
    (h : wellFormed players) :
    wellFormed (applyOps ops players) ∧
    (∀ (m : List QueueEntry) (playerId : String), (m.map (fun p => p.playerId)).Nodup →
      (applyOp m (.leave playerId)).map (fun p => p.playerId) =
        (m.map (fun p => p.playerId)).filter (fun x => !(x = playerId))) ∧
    (∀ (m : List QueueEntry) (nextUp : List String),
      (applyOp m (.rotate nextUp)).map (fun p => p.playerId) =
        (m.map (fun p => p.playerId)).filter (fun x => !(nextUp.contains x))) :=
  ⟨applyOps_wellFormed ops players h, applyOp_leave_map, applyOp_rotate_map⟩

/-- Witness for C4: a concrete run (two joins, a duplicate join that fails, a
leave, a rotation removal) from the empty queue ends well-formed. -/
theorem queue_sequence_invariant_witness :
    wellFormed (applyOps
      [.join "a", .join "b", .join "a", .join "c", .leave "b", .rotate ["a"]] []) :=
  (queue_sequence_invariant [] _ (by decide)).1

/-- **C5.** `joinQueue` rejects a player id already present (and, since the
transaction throws before writing, the queue is unchanged — `applyOp` keeps
the array as read); otherwise it appends the player at the tail and returns
position `length + 1`. -/
theorem joinQueue_spec (players : List QueueEntry) (playerId : String) :
    (playerId ∈ players.map (fun p => p.playerId) →
      joinQueue players playerId = .error .alreadyInQueue ∧
      applyOp players (.join playerId) = players) ∧
    (playerId ∉ players.map (fun p => p.playerId) →
      joinQueue players playerId =
        .ok (players.length + 1,
          players ++ [{ playerId := playerId, position := players.length + 1,
                        notified := false }])) := by
  constructor
  · intro hmem
    have hany : players.any (fun p => p.playerId = playerId) := by
      rcases List.mem_map.mp hmem with ⟨p, hp, rfl⟩
      simp only [List.any_eq_true, decide_eq_true_eq]
      exact ⟨p, hp, rfl⟩
    constructor
    · simp [joinQueue, hany]
    · simp [applyOp, joinQueue, hany]
  · intro hmem
    have hany : ¬ players.any (fun p => p.playerId = playerId) := by
      simp only [List.any_eq_true, decide_eq_true_eq]
      rintro ⟨p, hp, rfl⟩
      exact hmem (List.mem_map.mpr ⟨p, hp, rfl⟩)
    simp [joinQueue, hany]

/-- Witness for C5: joining a fresh id appends at the tail with position
`length + 1`; re-joining an id already present fails and leaves the queue
unchanged. -/
theorem joinQueue_spec_witness :
    (joinQueue [⟨"a", 1, false⟩] "a" = .error .alreadyInQueue ∧
      applyOp [⟨"a", 1, false⟩] (.join "a") = [⟨"a", 1, false⟩]) ∧
    joinQueue [⟨"a", 1, false⟩] "b" = .ok (2, [⟨"a", 1, false⟩, ⟨"b", 2, false⟩]) :=
  ⟨(joinQueue_spec [⟨"a", 1, false⟩] "a").1 (by decide),
    (joinQueue_spec [⟨"a", 1, false⟩] "b").2 (by decide)⟩

/-! ## Game lifecycle (GameService.js and QueueService.js `processGameEnd`)

A game document, its court document, and the two completion paths.  Server
timestamps are seconds (`Timestamp.seconds`); `duration = now.seconds -
startedAt.seconds` is an `Int` exactly as JS subtraction of the two counts. -/

/-- A document of the `games` collection. -/
structure GameDoc where
  gameId : String
  courtId : String
  queueId : String
  players : List String
  team1 : List String
  team2 : List String
  startedAt : Nat
  status : String
  endedAt : Option Nat := none
  duration : Option Int := none
  score : Option (Nat × Nat) := none
  winner : Option String := none
deriving Repr, DecidableEq

/-- A document of the `courts` collection (the fields `createGame`/`endGame`
touch). -/
structure CourtDoc where
  courtId : String
  status : String
  currentGame : Option String
deriving Repr, DecidableEq

/-- `teams[key]` object indexing for `key ∈ {'team1', 'team2'}`. -/
def teamOf (g : GameDoc) (key : String) : List String :=
  if key = "team1" then g.team1 else g.team2

/-- The `courts` update `db.collection('courts').doc(courtId).update({...})`. -/
def updateCourt (courts : List CourtDoc) (courtId status : String)
    (currentGame : Option String) : List CourtDoc :=
  courts.map (fun c =>
    if c.courtId = courtId then { c with status := status, currentGame := currentGame } else c)

/-- The fresh game document built by `createGame` (GameService.js lines
393–406): status `in_progress`, no score, no winner, no end time. -/
def newGameDoc (gameId courtId queueId : String) (players team1 team2 : List String)
    (startedAt : Nat) : GameDoc :=
  { gameId := gameId, courtId := courtId, queueId := queueId, players := players
    team1 := team1, team2 := team2, startedAt := startedAt, status := "in_progress" }

/-- Result of a successful `createGame`: the new `games` collection and the
updated `courts` collection (the returned JSON is the new document itself). -/
structure CreateOutcome where
  games : List GameDoc
  courts : List CourtDoc
deriving Repr, DecidableEq

/-- `createGame` (GameService.js lines 381–420).  It validates only the team
sizes — `players.length !== 4` and the two-per-team shape — then adds the
game and marks the court `in_game`.  It never reads the court's current
status or the `games` collection. -/
def createGame (games : List GameDoc) (courts : List CourtDoc)
    (gameId courtId queueId : String) (players team1 team2 : List String)
    (startedAt : Nat) : Except String CreateOutcome :=
  if players.length ≠ 4 then
    .error "Game requires exactly 4 players"
  else if team1.length ≠ 2 ∨ team2.length ≠ 2 then
    .error "Invalid team configuration"
  else
    .ok { games := games ++ [newGameDoc gameId courtId queueId players team1 team2 startedAt]
          courts := updateCourt courts courtId "in_game" (some gameId) }

/-- The JSON returned by `endGame` (GameService.js lines 471–478). -/
structure EndGameResult where
  gameId : String
  duration : Int
  score : Nat × Nat
  winner : String
  winningTeam : List String
  losingTeam : List String
deriving Repr, DecidableEq

/-- State after a successful `endGame`. -/
structure EndOutcome where
  games : List GameDoc
  courts : List CourtDoc
  result : EndGameResult
deriving Repr, DecidableEq

/-- `endGame` (GameService.js lines 428–479).  Fails when the game is missing
or already completed; otherwise computes `duration`, picks the winner by the
strict comparison `score.team1 > score.team2 ? 'team1' : 'team2'`, marks the
game completed, and frees the court.  Note there is no check that the two
scores differ. -/
def endGame (games : List GameDoc) (courts : List CourtDoc) (gameId : String)
    (score1 score2 : Nat) (now : Nat) : Except String EndOutcome :=
  match games.find? (fun g => g.gameId = gameId) with
  | none => .error "Game not found"
  | some g =>
    if g.status = "completed" then
      .error "Game already ended"
    else
      let duration : Int := (now : Int) - (g.startedAt : Int)
      let winner := if score1 > score2 then "team1" else "team2"
      let updated : GameDoc :=
        { g with endedAt := some now, duration := some duration,
                 score := some (score1, score2), winner := some winner,
                 status := "completed" }
      .ok { games := games.map (fun x => if x.gameId = gameId then updated else x)
            courts := updateCourt courts g.courtId "available" none
            result := { gameId := gameId, duration := duration, score := (score1, score2)
                        winner := winner, winningTeam := teamOf g winner
                        losingTeam := teamOf g (if winner = "team1" then "team2" else "team1") } }

/-- `getConsecutiveWins` (QueueService.js lines 252–280) applied to the query
result it reads: the most recent completed games on the court, most recent
first.  Counts while the given players are all among each game's winners,
stopping at the first mismatch. -/
def getConsecutiveWins (playerIds : List String) : List GameDoc → Nat
  | [] => 0
  | g :: rest =>
    let winners := teamOf g (match g.winner with | some k => k | none => "team2")
    if playerIds.all (fun id => winners.contains id) then
      getConsecutiveWins playerIds rest + 1
    else
      0

/-- State and value returned by a successful `processGameEnd`. -/
structure ProcessOutcome where
  updatedGame : GameDoc
  rotation : RotationDecision
  updatedPlayers : List QueueEntry
  duration : Int
deriving Repr, DecidableEq

/-- `processGameEnd` (QueueService.js lines 176–244) on the state its
transaction reads: the game document (`none` when missing), the queue's
`players` array, and the recent-games query feeding `getConsecutiveWins`.
The winner is again `result.team1Score > result.team2Score ? 'team1' :
'team2'` with no tie check; the rotation is applied to the queue by removing
the `nextUp` ids and recomputing positions. -/
def processGameEnd (game : Option GameDoc) (queuePlayers : List QueueEntry)
    (team1Score team2Score : Nat) (recentGames : List GameDoc) (now : Nat) :
    Except String ProcessOutcome :=
  match game with
  | none => .error "Game not found"
  | some g =>
    let duration : Int := (now : Int) - (g.startedAt : Int)
    let winningTeamKey := if team1Score > team2Score then "team1" else "team2"
    let losingTeamKey := if winningTeamKey = "team1" then "team2" else "team1"
    let winnerConsecutiveWins := getConsecutiveWins (teamOf g winningTeamKey) recentGames
    let gameResult : GameResult :=
      { winningTeam := teamOf g winningTeamKey
        losingTeam := teamOf g losingTeamKey
        winnerConsecutiveWins := winnerConsecutiveWins }
    let rotation := determineRotation gameResult queuePlayers
    let updatedGame : GameDoc :=
      { g with endedAt := some now, duration := some duration,
               score := some (team1Score, team2Score), winner := some winningTeamKey,
               status := "completed" }
    .ok { updatedGame := updatedGame, rotation := rotation
          updatedPlayers := rotationRemove queuePlayers rotation.nextUp
          duration := duration }

/-! ## Claim C3 (tie handling) and C10 (winner on equal scores) -/

/-- The in-progress game used to exercise the tie path. -/
def tieGame : GameDoc :=
  newGameDoc "game-1" "court-1" "queue-1" ["a", "b", "c", "d"] ["a", "b"] ["c", "d"] 600

/-- What the code stores for `tieGame` after `endGame(…, 9, 9)` at second
1000: completed, winner `team2`, duration 400. -/
def tieGameCompleted : GameDoc :=
  { tieGame with endedAt := some 1000, duration := some 400, score := some (9, 9),
                 winner := some "team2", status := "completed" }

/-- **C3.** Evaluation of the code at the failing input: ending an
`in_progress` game with the tied score 9–9 does **not** fail with a tied-score
error.  `endGame` returns success, records winner `team2`, and marks the game
completed with `endedAt` and `duration` set; `processGameEnd` likewise
completes the game.  (The claim — ties rejected, game left `in_progress` — is
what the spec and the app's own score screen demand, but neither completion
path implements any `scoreA == scoreB` check.) -/
theorem endGame_tie_not_rejected :
    endGame [tieGame] [⟨"court-1", "in_game", some "game-1"⟩] "game-1" 9 9 1000 =
      .ok { games := [tieGameCompleted]
            courts := [⟨"court-1", "available", none⟩]
            result := { gameId := "game-1", duration := 400, score := (9, 9)
                        winner := "team2", winningTeam := ["c", "d"]
                        losingTeam := ["a", "b"] } } ∧
    processGameEnd (some tieGame) [] 9 9 [] 1000 =
      .ok { updatedGame := tieGameCompleted
            rotation := { rotationType := "PARTIAL", playersOff := ["a", "b"]
                          playersStay := ["c", "d"], reason := "normal_play", nextUp := [] }
            updatedPlayers := []
            duration := 400 } := by
  constructor <;> rfl

/-- **C10.** For every pair of equal scores, both completion paths pick the
winner by the strict comparison `team1Score > team2Score` — false on a tie —
so the tied game completes with winner `team2`: `endGame` returns winner
`"team2"` (winning team = the game's team2) and stores the game as completed,
and `processGameEnd` stores winner `"team2"` as well. -/
theorem tied_score_completes_with_team2
    (games : List GameDoc) (courts : List CourtDoc) (gameId : String) (g : GameDoc)
    (s now : Nat) (queuePlayers : List QueueEntry) (recentGames : List GameDoc)
    (hfind : games.find? (fun x => x.gameId = gameId) = some g)
    (hstatus : g.status ≠ "completed") :
    (∃ out : EndOutcome,
      endGame games courts gameId s s now = .ok out ∧
      out.result.winner = "team2" ∧
      out.result.winningTeam = g.team2 ∧
      out.result.losingTeam = g.team1) ∧
    (∃ pout : ProcessOutcome,
      processGameEnd (some g) queuePlayers s s recentGames now = .ok pout ∧
      pout.updatedGame.winner = some "team2" ∧
      pout.updatedGame.status = "completed") := by
  have hlt : ¬ s > s := lt_irrefl s
  constructor
  · simp only [endGame, hfind, if_neg hstatus]
    refine ⟨_, rfl, ?_, ?_, ?_⟩ <;> simp [teamOf, hlt]
  · simp only [processGameEnd]
    refine ⟨_, rfl, ?_, ?_⟩ <;> simp [hlt]

/-- Witness for C10 at the concrete tied input 7–7. -/
theorem tied_score_completes_with_team2_witness :
    (∃ out : EndOutcome,
      endGame [tieGame] [⟨"court-1", "in_game", some "game-1"⟩] "game-1" 7 7 1000 =
        .ok out ∧
      out.result.winner = "team2" ∧
      out.result.winningTeam = tieGame.team2 ∧
      out.result.losingTeam = tieGame.team1) ∧
    (∃ pout : ProcessOutcome,
      processGameEnd (some tieGame) [] 7 7 [] 1000 = .ok pout ∧
      pout.updatedGame.winner = some "team2" ∧
      pout.updatedGame.status = "completed") :=
  tied_score_completes_with_team2 [tieGame] [⟨"court-1", "in_game", some "game-1"⟩]
    "game-1" tieGame 7 1000 [] [] (by decide) (by decide)

/-! ## Claim C6: no court-busy check in `createGame` -/

/-- Number of `in_progress` games recorded for a court. -/
def inProgressOn (games : List GameDoc) (courtId : String) : Nat :=
  (games.filter (fun g => g.courtId = courtId ∧ g.status = "in_progress")).length

/-- **C6 counterexample.** A court already holding the in-progress `tieGame`
accepts a second game: `createGame` succeeds (no `CourtBusy` error exists in
the code) and afterwards two `in_progress` games are recorded on `court-1`,
violating the at-most-one-in-progress invariant the claim says `createGame`
preserves. -/
theorem createGame_busy_court_succeeds :
    createGame [tieGame] [⟨"court-1", "in_game", some "game-1"⟩]
        "game-2" "court-1" "queue-1" ["e", "f", "g", "h"] ["e", "f"] ["g", "h"] 2000 =
      .ok { games := [tieGame,
              newGameDoc "game-2" "court-1" "queue-1" ["e", "f", "g", "h"]
                ["e", "f"] ["g", "h"] 2000]
            courts := [⟨"court-1", "in_game", some "game-2"⟩] } ∧
    inProgressOn [tieGame,
      newGameDoc "game-2" "court-1" "queue-1" ["e", "f", "g", "h"]
        ["e", "f"] ["g", "h"] 2000] "court-1" = 2 := by
  constructor <;> rfl

/-- **C6 as amended.** `createGame` validates only the team sizes: whenever
the request has 4 players split 2–2, it succeeds — regardless of any
in-progress game already on the court — appending the new `in_progress` game
and repointing the court, so the in-progress count on that court grows by
one.  No `CourtBusy` failure exists. -/
theorem createGame_no_busy_check
    (games : List GameDoc) (courts : List CourtDoc)
    (gameId courtId queueId : String) (players team1 team2 : List String) (startedAt : Nat)
    (h4 : players.length = 4) (h1 : team1.length = 2) (h2 : team2.length = 2) :
    createGame games courts gameId courtId queueId players team1 team2 startedAt =
      .ok { games := games ++ [newGameDoc gameId courtId queueId players team1 team2 startedAt]
            courts := updateCourt courts courtId "in_game" (some gameId) } ∧
    inProgressOn (games ++ [newGameDoc gameId courtId queueId players team1 team2 startedAt])
        courtId = inProgressOn games courtId + 1 := by
  constructor
  · simp [createGame, h4, h1, h2]
  · simp [inProgressOn, List.filter_append, newGameDoc]

/-- Witness for C6-as-amended on an empty database. -/
theorem createGame_no_busy_check_witness :
    createGame [] [] "game-9" "court-9" "queue-9" ["p", "q", "r", "s"] ["p", "q"] ["r", "s"] 0 =
      .ok { games := [newGameDoc "game-9" "court-9" "queue-9" ["p", "q", "r", "s"]
              ["p", "q"] ["r", "s"] 0]
            courts := [] } ∧
    inProgressOn [newGameDoc "game-9" "court-9" "queue-9" ["p", "q", "r", "s"]
        ["p", "q"] ["r", "s"] 0] "court-9" = 1 := by
  have h := createGame_no_busy_check [] [] "game-9" "court-9" "queue-9"
    ["p", "q", "r", "s"] ["p", "q"] ["r", "s"] 0 (by decide) (by decide) (by decide)
  simpa [updateCourt, inProgressOn, newGameDoc] using h

/-! ## Wait-time prediction

Two code paths predict waits: the Cloud Function `PredictionService.js`
(`predictWaitTime`, lines 20–50) and the client `GameDurationService`
(`predictWaitTime`, lines 160–180).  `Math.exp`/`Math.round` arithmetic is
embedded over `ℝ`; `Math.round(x)` is `⌊x + 1/2⌋` (JS rounds half up). -/

/-- `DEFAULT_GAME_DURATION_SECONDS = 15 * 60` (PredictionService.js line 11). -/
def DEFAULT_GAME_DURATION_SECONDS : ℝ := 15 * 60

/-- `MIN_GAMES_FOR_PREDICTION = 10` (PredictionService.js line 12). -/
def MIN_GAMES_FOR_PREDICTION : Nat := 10

/-- JS `Math.round`: round half toward positive infinity. -/
noncomputable def jsRound (x : ℝ) : ℤ := ⌊x + 1 / 2⌋

/-- `Math.ceil(position / 2)` — the `gamesUntilUp` of the Cloud Function path
(PredictionService.js line 37, "Simplified: 2 players per rotation"). -/
def gamesUntilUpCloud (position : Nat) : Nat := (position + 1) / 2

/-- `Math.ceil(position / playersPerGame)` with `playersPerGame = 4` — the
`gamesNeeded` of the client path (GameDurationService lines 164–168). -/
def gamesNeededClient (position : Nat) : Nat := (position + 3) / 4

/-- `calculateWeightedAverage` (PredictionService.js lines 114–126).
`weights[i] = Math.exp(-0.05 * i)` has exactly one weight per value, so the
indexed access `val * weights[i]` of the JS `reduce` is the positionwise
pairing `values.zip weights`. -/
noncomputable def calculateWeightedAverage (values : List ℝ) : ℝ :=
  if values.length = 0 then DEFAULT_GAME_DURATION_SECONDS
  else
    let weights := (List.range values.length).map (fun i : ℕ => Real.exp (-0.05 * (i : ℝ)))
    let weightSum := weights.foldl (fun a b => a + b) 0
    let weightedSum := (values.zip weights).foldl (fun sum p => sum + p.1 * p.2) 0
    weightedSum / weightSum

/-- The JSON returned by the Cloud Function `predictWaitTime` (lines 42–49);
the `confidence` and `calculatedAt` fields are separate reads of the database
and the clock and carry no arithmetic, so they are omitted here. -/
structure CloudPrediction where
  estimatedWaitMinutes : ℤ
  estimatedWaitSeconds : ℤ
  gamesUntilUp : Nat
  averageGameDuration : ℤ

/-- The arithmetic of the Cloud Function `predictWaitTime` (PredictionService.js
lines 36–49), given the average duration in seconds produced by
`getAverageGameDuration` (a weighted average of stored samples, or the
default).  The displayed estimate is `Math.round(estimatedWaitSeconds / 60)`
— rounded to the nearest minute, not to a 5-minute step. -/
noncomputable def predictWaitTimeCloud (position : Nat) (avgDuration : ℝ) :
    CloudPrediction :=
  let gamesUntilUp := gamesUntilUpCloud position
  let estimatedWaitSeconds : ℝ := gamesUntilUp * avgDuration
  { estimatedWaitMinutes := jsRound (estimatedWaitSeconds / 60)
    estimatedWaitSeconds := jsRound estimatedWaitSeconds
    gamesUntilUp := gamesUntilUp
    averageGameDuration := jsRound (avgDuration / 60) }

/-- The client `predictWaitTime(position, avgDurationMinutes, activeCourts)`
(GameDurationService lines 160–180): games needed at 4 players per game,
courts discounted to 70 % efficiency, and the result clamped at 0 after
rounding to the nearest 5 minutes. -/
noncomputable def predictWaitTimeClient (position : Nat) (avgDurationMinutes : ℝ)
    (activeCourts : Nat) : ℤ :=
  if position = 0 then 0
  else
    let gamesNeeded := gamesNeededClient position
    let parallelEfficiency : ℝ := 0.7
    let effectiveCourts : ℝ := max 1 (activeCourts * parallelEfficiency)
    let estimatedMinutes : ℝ := gamesNeeded * avgDurationMinutes / effectiveCourts
    max 0 (jsRound (estimatedMinutes / 5) * 5)

/-! ## Claim C7: the two `gamesUntilUp` computations disagree -/

/-- **C7.** The Cloud Function path computes `ceil(position/2)` while the
client path computes `ceil(position/4)`; for every position from 3 up the two
values differ (for positions 1 and 2 both give 1). -/
theorem gamesUntilUp_paths_disagree (position : Nat) (h : 3 ≤ position) :
    gamesUntilUpCloud position ≠ gamesNeededClient position := by
  unfold gamesUntilUpCloud gamesNeededClient
  omega

/-- Witness for C7 at position 3: `ceil(3/2) = 2` but `ceil(3/4) = 1`. -/
theorem gamesUntilUp_paths_disagree_witness :
    3 ≤ 3 ∧ gamesUntilUpCloud 3 ≠ gamesNeededClient 3 :=
  ⟨by decide, gamesUntilUp_paths_disagree 3 (by decide)⟩

/-! ## Claim C8: the exponentially weighted average -/

/-- The spec's closed formula for the weighted average, written from the
spec's words for comparison against `calculateWeightedAverage`:
`Σ(v[i]*w[i]) / Σ(w[i])` with `w[i] = exp(-0.05 * i)` over `i < n`. -/
noncomputable def specWeightedAverage (values : List ℝ) : ℝ :=
  (∑ i in Finset.range values.length, values.getD i 0 * Real.exp (-0.05 * i)) /
    (∑ i in Finset.range values.length, Real.exp (-0.05 * i))

lemma foldl_add (l : List ℝ) (a : ℝ) : l.foldl (fun x y => x + y) a = a + l.sum := by
  induction l generalizing a with
  | nil => simp
  | cons x xs ih => simp [ih, add_assoc]

lemma foldl_add_mul (l : List (ℝ × ℝ)) (a : ℝ) :
    l.foldl (fun sum p => sum + p.1 * p.2) a = a + (l.map (fun p => p.1 * p.2)).sum := by
  induction l generalizing a with
  | nil => simp
  | cons x xs ih => simp [ih, add_assoc]

lemma zip_range_map_sum (v : List ℝ) (f : ℕ → ℝ) :
    ((v.zip ((List.range v.length).map f)).map (fun p => p.1 * p.2)).sum =
      ∑ i in Finset.range v.length, v.getD i 0 * f i := by
  induction v generalizing f with
  | nil => simp
  | cons x xs ih =>
    rw [List.length_cons, List.range_succ_eq_map, List.map_cons, List.zip_cons_cons,
      List.map_cons, List.sum_cons, List.map_map, Finset.sum_range_succ']
    rw [ih (f ∘ Nat.succ)]
    simp only [List.getD_cons_succ, List.getD_cons_zero, Function.comp_apply,
      Nat.succ_eq_add_one]
    ring

lemma range_map_sum (n : ℕ) (f : ℕ → ℝ) :
    ((List.range n).map f).sum = ∑ i in Finset.range n, f i := by
  induction n with
  | zero => simp
  | succ n ih =>
    rw [List.range_succ, List.map_append, List.sum_append, ih, Finset.sum_range_succ]
    simp

/-- The JS `reduce` folds compute exactly the spec's quotient of sums. -/
lemma calculateWeightedAverage_eq_spec (v : List ℝ) (hv : v ≠ []) :
    calculateWeightedAverage v = specWeightedAverage v := by
  have hlen : v.length ≠ 0 := fun h => hv (List.length_eq_zero.mp h)
  unfold calculateWeightedAverage specWeightedAverage
  simp only [hlen, if_false]
  rw [foldl_add, foldl_add_mul, zero_add, zero_add, zip_range_map_sum, range_map_sum]

/-- The weighted average of identical samples is that sample (makes the
780-second average of the C9 counterexample a reachable database state). -/
lemma wavg_replicate : calculateWeightedAverage (List.replicate 10 (780 : ℝ)) = 780 := by
  rw [calculateWeightedAverage_eq_spec _ (by simp)]
  unfold specWeightedAverage
  have hS : (0:ℝ) < ∑ i in Finset.range (List.replicate 10 (780:ℝ)).length,
      Real.exp (-0.05 * i) := by
    apply Finset.sum_pos (fun i _ => Real.exp_pos _)
    simp
  have hterm : ∀ i ∈ Finset.range (List.replicate 10 (780:ℝ)).length,
      (List.replicate 10 (780:ℝ)).getD i 0 * Real.exp (-0.05 * i) =
        780 * Real.exp (-0.05 * i) := by
    intro i hi
    simp only [List.length_replicate, Finset.mem_range] at hi
    rw [List.getD_eq_getElem?_getD, List.getElem?_replicate, if_pos hi]
    rfl
  rw [Finset.sum_congr rfl hterm, ← Finset.mul_sum, mul_div_assoc, div_self hS.ne', mul_one]

lemma one_sub_le_exp_neg (x : ℝ) : 1 - x ≤ Real.exp (-x) := by
  have h := Real.add_one_le_exp (-x)
  linarith

lemma exp_neg_le_inv (x : ℝ) (hx : 0 ≤ x) : Real.exp (-x) ≤ 1 / (1 + x) := by
  rw [Real.exp_neg, one_div]
  exact inv_anti₀ (by linarith) (by linarith [Real.add_one_le_exp x])

/-- `calculateWeightedAverage [10, 20, 30]` in closed form. -/
lemma wavg3_eq :
    calculateWeightedAverage [10, 20, 30] =
      (10 + 20 * Real.exp (-0.05) + 30 * Real.exp (-0.1)) /
        (1 + Real.exp (-0.05) + Real.exp (-0.1)) := by
  have h0 : (-0.05 : ℝ) * ((0 : ℕ) : ℝ) = 0 := by norm_num
  have h1 : (-0.05 : ℝ) * ((1 : ℕ) : ℝ) = -0.05 := by norm_num
  have h2 : (-0.05 : ℝ) * ((2 : ℕ) : ℝ) = -0.1 := by norm_num
  unfold calculateWeightedAverage
  norm_num [List.range_succ, h0, h1, h2, Real.exp_zero]

/-- Interval bounds: the example average lies strictly between 19.6 and
19.7 (the exact value is ≈ 19.665). -/
lemma wavg3_bounds :
    19.6 < calculateWeightedAverage [10, 20, 30] ∧
    calculateWeightedAverage [10, 20, 30] < 19.7 := by
  have ha1 : (19/20 : ℝ) ≤ Real.exp (-0.05) := by
    have := one_sub_le_exp_neg (0.05 : ℝ); norm_num at this ⊢; linarith
  have ha2 : Real.exp (-0.05) ≤ 20/21 := by
    have := exp_neg_le_inv (0.05 : ℝ) (by norm_num); norm_num at this ⊢; linarith
  have hb1 : (9/10 : ℝ) ≤ Real.exp (-0.1) := by
    have := one_sub_le_exp_neg (0.1 : ℝ); norm_num at this ⊢; linarith
  have hb2 : Real.exp (-0.1) ≤ 10/11 := by
    have := exp_neg_le_inv (0.1 : ℝ) (by norm_num); norm_num at this ⊢; linarith
  rw [wavg3_eq]
  have hD : (0:ℝ) < 1 + Real.exp (-0.05) + Real.exp (-0.1) := by
    have := Real.exp_pos (-0.05 : ℝ); have := Real.exp_pos (-0.1 : ℝ); linarith
  constructor
  · rw [lt_div_iff₀ hD]; linarith
  · rw [div_lt_iff₀ hD]; linarith

/-- **C8 counterexample.** The weighted average of `[10, 20, 30]` is more
than `1/4` away from the value `19.3` the claim gives for it: the true value
of `(10·1 + 20·e^{-0.05} + 30·e^{-0.1})/(1 + e^{-0.05} + e^{-0.1})` is
≈ 19.665, and the claim's `≈ 19.3` is an arithmetic slip. -/
theorem weightedAverage_example_not_19_3 :
    1/4 < |calculateWeightedAverage [10, 20, 30] - 19.3| := by
  have h := wavg3_bounds.1
  have h2 : (1/4 : ℝ) < calculateWeightedAverage [10, 20, 30] - 19.3 := by linarith
  exact lt_of_lt_of_le h2 (le_abs_self _)

/-- **C8 (amended).** For every non-empty sample list `v` ordered
most-recent-first, `calculateWeightedAverage` returns
`Σ(v[i]·w[i]) / Σ(w[i])` with `w[i] = exp(-0.05·i)`; in particular for
samples `[10, 20, 30]` the result is ≈ 19.7 (strictly between 19.6 and
19.7), not 19.3. -/
theorem calculateWeightedAverage_spec :
    (∀ v : List ℝ, v ≠ [] → calculateWeightedAverage v = specWeightedAverage v) ∧
    19.6 < calculateWeightedAverage [10, 20, 30] ∧
    calculateWeightedAverage [10, 20, 30] < 19.7 :=
  ⟨calculateWeightedAverage_eq_spec, wavg3_bounds.1, wavg3_bounds.2⟩

/-- Witness for C8-as-amended at the concrete sample list `[10, 20, 30]`. -/
theorem calculateWeightedAverage_spec_witness :
    calculateWeightedAverage [10, 20, 30] = specWeightedAverage [10, 20, 30] :=
  calculateWeightedAverage_spec.1 [10, 20, 30] (by simp)

/-! ## Claim C9: rounding granularity of the two prediction paths -/

lemma dvd_max_zero_mul (x : ℤ) : (5 : ℤ) ∣ max 0 (x * 5) := by
  rcases le_total (x * 5) 0 with h | h
  · rw [max_eq_left h]; exact dvd_zero 5
  · rw [max_eq_right h]; exact ⟨x, mul_comm x 5⟩

/-- **C9 (amended).** The client path (`GameDurationService.predictWaitTime`)
always returns a multiple of 5 minutes — it rounds to the nearest 5-minute
increment (and clamps at 0).  The Cloud Function path does not do this; see
the counterexample theorem. -/
theorem predictWaitTimeClient_multiple_of_5
    (position : Nat) (avgDurationMinutes : ℝ) (activeCourts : Nat) :
    (5 : ℤ) ∣ predictWaitTimeClient position avgDurationMinutes activeCourts := by
  unfold predictWaitTimeClient
  by_cases hp : position = 0
  · simp [hp]
  · simp only [hp, if_false]
    exact dvd_max_zero_mul _

/-- **C9 counterexample.** The Cloud Function path rounds only to the nearest
minute: with ten stored games of 780 seconds (13 minutes) each — whose
weighted average is exactly 780 — a player at position 1 is shown
`estimatedWaitMinutes = 13`, which is not a multiple of 5. -/
theorem predictWaitTimeCloud_not_multiple_of_5 :
    calculateWeightedAverage (List.replicate 10 (780 : ℝ)) = 780 ∧
    (predictWaitTimeCloud 1 780).estimatedWaitMinutes = 13 ∧
    ¬ (5 : ℤ) ∣ (predictWaitTimeCloud 1 780).estimatedWaitMinutes := by
  have h13 : (predictWaitTimeCloud 1 780).estimatedWaitMinutes = 13 := by
    show jsRound ((gamesUntilUpCloud 1 : ℝ) * 780 / 60) = 13
    have h1 : gamesUntilUpCloud 1 = 1 := by decide
    rw [h1, jsRound]
    have harith : ((1 : ℕ) : ℝ) * 780 / 60 + 1 / 2 = 13.5 := by norm_num
    rw [harith, Int.floor_eq_iff]
    norm_num
  refine ⟨wavg_replicate, h13, ?_⟩
  rw [h13]
  decide

end Pickleball
